import Mathlib

/-!
Verification development for the `vdom` package (`vdom/core.py`).

The Python source is shallowly embedded:

* `VDOM` nodes become a mutual inductive family (`VDOM` / `Child` /
  `ChildList`), with the `_frozen` slot carried explicitly.
* Python exceptions become the `PyErr` sum type; fallible operations
  return `Except PyErr _`.
* JSON values (the structured wire form handled by `to_dict` /
  `from_dict`) become the mutual family `Json` / `JArr` / `JObj`.
* Loosely-typed Python values that may be passed as children or
  positional arguments become `PyVal` / `PyValList`.
* `html.escape(s, quote=True)` (Python 3 branch of the source) becomes
  `escape`, written as a character-wise map; this is equivalent to the
  stdlib's five sequential `str.replace` calls because the replacement
  fragments are never themselves re-scanned by later replacements.
-/

/-- The Python exception classes raised by `vdom.core`:
`ValueError`, `TypeError`, `AttributeError`, and `jsonschema.ValidationError`. -/
inductive PyErr where
  | valueError (msg : String)
  | typeError (msg : String)
  | attributeError (msg : String)
  | validationError (msg : String)

deriving instance DecidableEq for PyErr

deriving instance DecidableEq for Except

/-- The double-quote character `"`. -/
def quoteChar : Char := Char.ofNat 34

/-- The apostrophe character. -/
def aposChar : Char := Char.ofNat 39

/-- Replacement performed by Python 3 `html.escape(_, quote=True)` on a
single character: `&`, `<`, `>`, `"` and the apostrophe become entities,
all other characters pass through. -/
def escChar (c : Char) : List Char :=
  if c = '&' then ['&', 'a', 'm', 'p', ';']
  else if c = '<' then ['&', 'l', 't', ';']
  else if c = '>' then ['&', 'g', 't', ';']
  else if c = quoteChar then ['&', 'q', 'u', 'o', 't', ';']
  else if c = aposChar then ['&', '#', 'x', '2', '7', ';']
  else [c]

/-- `escChar` mapped over a character list. -/
def escList : List Char → List Char
  | [] => []
  | c :: cs => escChar c ++ escList cs

/-- Python 3 `html.escape(s, quote=True)`, as used by `VDOM._repr_html_`. -/
def escape (s : String) : String := ⟨escList s.data⟩

mutual
/-- JSON values (the structured data handled by `to_dict`/`from_dict`),
with object fields and array elements as bespoke list types so that all
recursion below is structural. -/
inductive Json where
  | jnull
  | jbool (b : Bool)
  | jnum (n : Int)
  | jstr (s : String)
  | jarr (xs : JArr)
  | jobj (fs : JObj)
inductive JArr where
  | nil
  | cons (x : Json) (xs : JArr)
inductive JObj where
  | nil
  | cons (k : String) (v : Json) (fs : JObj)
end

deriving instance DecidableEq for Json, JArr, JObj

/-- Python `dict.get(key)`: the value at `key`, or `none` when absent.
Python dicts have unique keys; on our assoc list the first match wins. -/
def JObj.get : JObj → String → Option Json
  | .nil, _ => none
  | .cons k v fs, key => if k = key then some v else fs.get key

/-- Python `key in dict`. -/
def JObj.hasKey : JObj → String → Bool
  | .nil, _ => false
  | .cons k _ fs, key => k = key || fs.hasKey key

/-- Is this JSON value a string? -/
def Json.isStr : Json → Bool
  | .jstr _ => true
  | _ => false

/-- Field access on a JSON value: `get` on objects, `none` otherwise. -/
def Json.getField (j : Json) (key : String) : Option Json :=
  match j with
  | .jobj fs => fs.get key
  | _ => none

/-- Does a JSON value have the field `key` (objects only)? -/
def Json.hasField (j : Json) (key : String) : Bool :=
  match j with
  | .jobj fs => fs.hasKey key
  | _ => false

mutual
/-- The element-tree type of `vdom.core.VDOM` together with its children.
A node carries the `__slots__` fields `tag_name`, `attributes`,
`children`, `key` and `_frozen` (the last modelled as the `frozen`
flag).  Children are the tagged union the source enforces at
construction time: raw text (`str`) or a nested `VDOM`. -/
inductive VDOM where
  | mk (tag_name : String) (attributes : List (String × String))
      (children : ChildList) (key : Option String) (frozen : Bool)
inductive Child where
  | text (s : String)
  | elem (v : VDOM)
inductive ChildList where
  | nil
  | cons (c : Child) (cs : ChildList)
end

deriving instance DecidableEq for VDOM, Child, ChildList

def VDOM.tag_name : VDOM → String
  | .mk t _ _ _ _ => t

def VDOM.attributes : VDOM → List (String × String)
  | .mk _ a _ _ _ => a

def VDOM.children : VDOM → ChildList
  | .mk _ _ c _ _ => c

def VDOM.key : VDOM → Option String
  | .mk _ _ _ k _ => k

/-- The `_frozen` slot. -/
def VDOM.frozen : VDOM → Bool
  | .mk _ _ _ _ f => f

mutual
/-- Loosely-typed Python values that may appear as positional arguments
or as entries of a supplied children sequence: strings, `VDOM`
instances, lists, tuples, ints, bools and `None`. -/
inductive PyVal where
  | str (s : String)
  | elem (v : VDOM)
  | pylist (xs : PyValList)
  | pytuple (xs : PyValList)
  | pynum (n : Int)
  | pybool (b : Bool)
  | pynone
inductive PyValList where
  | nil
  | cons (x : PyVal) (xs : PyValList)
end

deriving instance DecidableEq for PyVal, PyValList

/-- The source's child-type test `isinstance(c, (VDOM, str, unicode))`
(under Python 3, `unicode is str`), returning the accepted child:
strings become text children, `VDOM` instances element children. -/
def PyVal.toChild : PyVal → Option Child
  | .str s => some (.text s)
  | .elem v => some (.elem v)
  | _ => none

/-- Apply `PyVal.toChild` across a children sequence; `none` as soon as
one entry fails the `isinstance` test. -/
def PyValList.toChildrenOpt : PyValList → Option ChildList
  | .nil => some .nil
  | .cons x xs =>
    match x.toChild with
    | none => none
    | some c =>
      match xs.toChildrenOpt with
      | none => none
      | some cs => some (.cons c cs)

/-- The error message of the source's child-type check. -/
def childTypeErrMsg : String := "Children must be a list of VDOM objects or strings"

/-- `VDOM.__init__` on the ordinary path (`tag_name` is a string; no
`schema` argument, as in every call site the claims exercise).  The
source stores the fields (attributes through `FrozenDict`, children as
a tuple), validates that every child is a `VDOM` or `str` — raising
`ValueError` otherwise, so that no usable object is produced — and
finally sets `_frozen = True`. -/
def VDOM.init (tag_name : String) (attributes : List (String × String))
    (children : PyValList) (key : Option String) : Except PyErr VDOM :=
  match children.toChildrenOpt with
  | some cs => .ok (.mk tag_name attributes cs key true)
  | none => .error (.valueError childTypeErrMsg)

/-- A field assignment attempt on a `VDOM` instance: one of the
`__slots__` names together with a value of the slot's shape. -/
inductive FieldAssign where
  | setTag (s : String)
  | setAttributes (a : List (String × String))
  | setChildren (c : ChildList)
  | setKey (k : Option String)
  | setFrozen (b : Bool)

/-- The raw slot write `super().__setattr__` performs when the guard
passes. -/
def applyAssign (v : VDOM) (fa : FieldAssign) : VDOM :=
  match v, fa with
  | .mk _ a c k f, .setTag s => .mk s a c k f
  | .mk t _ c k f, .setAttributes a => .mk t a c k f
  | .mk t a _ k f, .setChildren c => .mk t a c k f
  | .mk t a c _ f, .setKey k => .mk t a c k f
  | .mk t a c k _, .setFrozen f => .mk t a c k f

/-- The error message of `VDOM.__setattr__`. -/
def immutableErrMsg : String := "Cannot change attribute of immutable object"

/-- `VDOM.__setattr__`: when `_frozen` is set, raise `AttributeError`
and leave the object untouched; otherwise perform the slot write.
Returns the object afterwards together with the raised error, if any. -/
def VDOM.setattr (v : VDOM) (fa : FieldAssign) : VDOM × Option PyErr :=
  if v.frozen then (v, some (.attributeError immutableErrMsg))
  else (applyAssign v fa, none)

/-- The attribute fragment of `VDOM._repr_html_`: for each pair, emit
a space, the escaped key, `="`, the escaped value, and `"`. -/
def attrsHtml : List (String × String) → String
  | [] => ""
  | (k, v) :: rest =>
    " " ++ escape k ++ "=" ++ String.singleton quoteChar ++ escape v
      ++ String.singleton quoteChar ++ attrsHtml rest

mutual
/-- `VDOM._repr_html_`: emit `<` + escaped tag, the escaped attribute
pairs, `>`, every child in order (text escaped, elements recursively),
and `</` + escaped tag + `>`.  No self-closing form exists. -/
def VDOM.repr_html : VDOM → String
  | .mk tag attrs cs _ _ =>
    "<" ++ escape tag ++ attrsHtml attrs ++ ">"
      ++ childrenHtml cs ++ "</" ++ escape tag ++ ">"
def childrenHtml : ChildList → String
  | .nil => ""
  | .cons (.text s) cs => escape s ++ childrenHtml cs
  | .cons (.elem v) cs => v.repr_html ++ childrenHtml cs
end

/-- Does every value of the object lie in `jstr`?  Used by the schema
check on the `attributes` field. -/
def JObj.allStr : JObj → Bool
  | .nil => true
  | .cons _ v fs => v.isStr && fs.allStr

mutual
/-- Modelled from the spec: `validate(value, VDOM_SCHEMA)` of the
canonical schema, whose document (`schemas/vdom_schema_v1.json`) is not
among the provided sources.  Per the spec's wire format, a valid value
is a mapping with a required string `tagName`, an optional
string-to-string `attributes` mapping, an optional `children` array
whose entries are nested valid nodes or strings, and an optional
string `key`. -/
def validNode : Json → Bool
  | .jobj fs => fs.hasKey "tagName" && validFields fs
  | _ => false
/-- Field-wise part of the schema check: every present occurrence of
the four schema fields has the required shape; unknown fields pass. -/
def validFields : JObj → Bool
  | .nil => true
  | .cons k v fs =>
    (if k = "tagName" then v.isStr
     else if k = "attributes" then
       match v with
       | .jobj afs => afs.allStr
       | _ => false
     else if k = "children" then
       match v with
       | .jarr xs => validChildren xs
       | _ => false
     else if k = "key" then v.isStr
     else true)
      && validFields fs
/-- Every entry of a `children` array is a string or a valid node. -/
def validChildren : JArr → Bool
  | .nil => true
  | .cons x xs =>
    (match x with
     | .jstr _ => true
     | other => validNode other)
      && validChildren xs
end

/-- The attributes mapping as a JSON object (`to_dict` emits
`self.attributes` unchanged). -/
def attrsToJ : List (String × String) → JObj
  | [] => .nil
  | (k, v) :: rest => .cons k (.jstr v) (attrsToJ rest)

/-- The `if self.key:` step of `to_dict`: insert a `key` field exactly
when the key is Python-truthy, i.e. present and non-empty. -/
def keyFields : Option String → JObj → JObj
  | none, rest => rest
  | some s, rest => if s = "" then rest else .cons "key" (.jstr s) rest

mutual
/-- `VDOM.to_dict`: build `{tagName, attributes, key?, children}` in the
source's insertion order, converting element children recursively and
passing text children through; the `key` field is emitted only when
`self.key` is truthy. -/
def VDOM.to_dict : VDOM → Json
  | .mk tag attrs cs key _ =>
    .jobj (.cons "tagName" (.jstr tag)
      (.cons "attributes" (.jobj (attrsToJ attrs))
        (keyFields key (.cons "children" (.jarr (childrenToJ cs)) .nil))))
/-- The children list of `to_dict`: `c.to_dict() if isinstance(c, VDOM) else c`. -/
def childrenToJ : ChildList → JArr
  | .nil => .nil
  | .cons (.text s) cs => .cons (.jstr s) (childrenToJ cs)
  | .cons (.elem v) cs => .cons v.to_dict (childrenToJ cs)
end

/-- Representative text of the `_validate_err_template` message raised
on schema failure (the source interpolates the schema and the
validator detail; the claims depend only on the error class). -/
def schemaErrMsg : String := "Your object didn't match the schema"

/-- `value['tagName']` after successful validation (validation
guarantees the field exists and is a string; the fallback is dead). -/
def tagOf (fs : JObj) : String :=
  match fs.get "tagName" with
  | some (.jstr t) => t
  | _ => ""

/-- String-object fields into an attribute list.  On validated input
every value is a string; the skip branch is dead. -/
def JObj.toAttrs : JObj → List (String × String)
  | .nil => []
  | .cons k (.jstr s) fs => (k, s) :: fs.toAttrs
  | .cons _ _ fs => fs.toAttrs

/-- `value.get('attributes', {})` of `from_dict`, fed through
`FrozenDict` by the constructor. -/
def attrsOf (fs : JObj) : List (String × String) :=
  match fs.get "attributes" with
  | some (.jobj afs) => afs.toAttrs
  | _ => []

/-- `value.get('key')` of `from_dict` (a string or absent on validated
input). -/
def keyOf (fs : JObj) : Option String :=
  match fs.get "key" with
  | some (.jstr s) => some s
  | _ => none

mutual
/-- `VDOM.from_dict`: validate against the canonical schema — raising
the schema `ValidationError` on mismatch — then build the tree through
the constructor, converting dict children recursively and passing all
other children through unchanged. -/
def VDOM.from_dict (value : Json) : Except PyErr VDOM :=
  if validNode value then
    match value with
    | .jobj fs =>
      match childrenOfFields fs with
      | .error e => .error e
      | .ok cs => VDOM.init (tagOf fs) (attrsOf fs) cs (keyOf fs)
    | _ => .error (.validationError schemaErrMsg)
  else .error (.validationError schemaErrMsg)
/-- `value.get('children', [])` of `from_dict` followed by the child
conversion; scans for the first `children` field (Python dict keys are
unique).  A non-array `children` value never reaches this point on
validated input. -/
def childrenOfFields : JObj → Except PyErr PyValList
  | .nil => .ok .nil
  | .cons k v fs =>
    if k = "children" then
      match v with
      | .jarr xs => childrenFromJson xs
      | _ => .ok .nil
    else childrenOfFields fs
/-- The list comprehension
`[VDOM.from_dict(c) if isinstance(c, dict) else c for c in ...]`:
dicts are decoded recursively (a nested failure aborts the whole
call), every other JSON value passes through as the corresponding
Python value. -/
def childrenFromJson : JArr → Except PyErr PyValList
  | .nil => .ok .nil
  | .cons c cs =>
    match ((match c with
            | .jobj fs2 =>
              match VDOM.from_dict (.jobj fs2) with
              | .error e => .error e
              | .ok v => .ok (PyVal.elem v)
            | .jstr s => .ok (PyVal.str s)
            | .jnum n => .ok (PyVal.pynum n)
            | .jbool b => .ok (PyVal.pybool b)
            | .jnull => .ok PyVal.pynone
            | .jarr ys => .ok (PyVal.pylist (jarrToPyList ys))) :
           Except PyErr PyVal) with
    | .error e => .error e
    | .ok x =>
      match childrenFromJson cs with
      | .error e => .error e
      | .ok xs => .ok (.cons x xs)
/-- A JSON array passed through unchanged as a Python list value (only
possible on unvalidated input, where the constructor then rejects it). -/
def jarrToPyList : JArr → PyValList
  | .nil => .nil
  | .cons c cs =>
    .cons (match c with
           | .jstr s => PyVal.str s
           | .jnum n => PyVal.pynum n
           | .jbool b => PyVal.pybool b
           | .jnull => PyVal.pynone
           | .jarr ys => PyVal.pylist (jarrToPyList ys)
           | .jobj _ => PyVal.pynone)
      (jarrToPyList cs)
end

/-- The tag argument of `VDOM.__init__`: a plain string tag, or a
structured JSON value (dict or list) that triggers the deprecated
backwards-compatible adapter (`isinstance(tag_name, (dict, list))`). -/
inductive TagArg where
  | tagStr (s : String)
  | tagValue (j : Json)

/-- Does the tag argument trigger the legacy adapter, i.e. is it a
Python dict or list? -/
def isStructuredArg : Json → Bool
  | .jobj _ => true
  | .jarr _ => true
  | _ => false

/-- The deprecation text of the legacy adapter. -/
def deprecationMsg : String := "Passing dict to VDOM constructor is deprecated"

/-- A `VDOM` node's children as the Python values the constructor sees
when they are handed back in (each already a `str` or a `VDOM`). -/
def ChildList.asPyVals : ChildList → PyValList
  | .nil => .nil
  | .cons (.text s) cs => .cons (.str s) cs.asPyVals
  | .cons (.elem v) cs => .cons (.elem v) cs.asPyVals

/-- Full `VDOM.__init__` including the legacy branch: when the tag
argument is a dict or list, warn (non-fatally), decode it with
`from_dict` — whose schema failure propagates — and overwrite all four
supplied fields with the decoded object's fields before running the
ordinary construction path.  Returns the warnings emitted alongside
the outcome. -/
def VDOM.construct (tagArg : TagArg) (attributes : List (String × String))
    (children : PyValList) (key : Option String) :
    List String × Except PyErr VDOM :=
  match tagArg with
  | .tagStr s => ([], VDOM.init s attributes children key)
  | .tagValue j =>
    ([deprecationMsg],
     match VDOM.from_dict j with
     | .error e => .error e
     | .ok vd => VDOM.init vd.tag_name vd.attributes vd.children.asPyVals vd.key)

/-- Children resolution of `create_component`'s inner `_component`: an
explicit `children` keyword overrides the positional arguments
entirely; otherwise a single positional argument that is a Python
*list* is flattened into the children sequence (`isinstance(children[0],
list)`), and in every other case the positional arguments themselves
are the children. -/
def resolveChildren (pos : PyValList) (childrenKw : Option PyValList) : PyValList :=
  match childrenKw with
  | some cs => cs
  | none =>
    match pos with
    | .cons (.pylist xs) .nil => xs
    | _ => pos

/-- Attribute resolution of `_component`: an explicit `attributes`
keyword is used verbatim; otherwise the remaining keyword arguments
form the attribute mapping. -/
def resolveAttributes (attributesKw : Option (List (String × String)))
    (kwargs : List (String × String)) : List (String × String) :=
  match attributesKw with
  | some a => a
  | none => kwargs

/-- The inner `_component` closure of `create_component(tag_name,
allow_children)`: resolve children and attributes, reject a non-empty
children sequence when `allow_children` is false with a `ValueError`
naming the tag, then construct the `VDOM` (no key, no schema).
Keyword arguments are split into the reserved `children` and
`attributes` keys and the remaining pairs. -/
def component (tag_name : String) (allow_children : Bool)
    (pos : PyValList) (childrenKw : Option PyValList)
    (attributesKw : Option (List (String × String)))
    (kwargs : List (String × String)) : Except PyErr VDOM :=
  let children := resolveChildren pos childrenKw
  let attributes := resolveAttributes attributesKw kwargs
  if !allow_children && children ≠ .nil then
    .error (.valueError ("<" ++ tag_name ++ " /> cannot have children"))
  else
    VDOM.init tag_name attributes children none

/-- `create_component(tag_name, allow_children)`: returns the
`_component` factory closure. -/
def create_component (tag_name : String) (allow_children : Bool) :
    PyValList → Option PyValList → Option (List (String × String)) →
    List (String × String) → Except PyErr VDOM :=
  component tag_name allow_children

/-- Does `pat` occur at the head of `l`? -/
def beginsWith : List Char → List Char → Bool
  | [], _ => true
  | _ :: _, [] => false
  | p :: ps, c :: cs => c = p && beginsWith ps cs

/-- Number of (possibly overlapping) occurrences of `pat` in `l`: one
per position at which `pat` begins. -/
def countSeq (pat : List Char) : List Char → Nat
  | [] => 0
  | c :: rest => (if beginsWith pat (c :: rest) then 1 else 0) + countSeq pat rest

/-- The five entity bodies `html.escape` can emit. -/
def ampEntity : List Char := ['&', 'a', 'm', 'p', ';']

def ltEntity : List Char := ['&', 'l', 't', ';']

def gtEntity : List Char := ['&', 'g', 't', ';']

def quotEntity : List Char := ['&', 'q', 'u', 'o', 't', ';']

def aposEntity : List Char := ['&', '#', 'x', '2', '7', ';']

/-- Every ampersand in `l` is the start of one of the five escape
entities — i.e. no stray (unescaped) `&` occurs. -/
def ampOk : List Char → Bool
  | [] => true
  | c :: rest =>
    (c != '&' || beginsWith ['a', 'm', 'p', ';'] rest
      || beginsWith ['l', 't', ';'] rest
      || beginsWith ['g', 't', ';'] rest
      || beginsWith ['q', 'u', 'o', 't', ';'] rest
      || beginsWith ['#', 'x', '2', '7', ';'] rest)
      && ampOk rest

/-- Occurrences of a character in a string. -/
def countChar (c : Char) (s : String) : Nat := s.data.count c

mutual
/-- Number of element nodes in a tree (the root included). -/
def VDOM.nodes : VDOM → Nat
  | .mk _ _ cs _ _ => 1 + cs.nodes
def ChildList.nodes : ChildList → Nat
  | .nil => 0
  | .cons (.text _) cs => cs.nodes
  | .cons (.elem v) cs => v.nodes + cs.nodes
end

mutual
/-- Total number of attribute pairs across all nodes of a tree. -/
def VDOM.attrPairs : VDOM → Nat
  | .mk _ attrs cs _ _ => attrs.length + cs.attrPairs
def ChildList.attrPairs : ChildList → Nat
  | .nil => 0
  | .cons (.text _) cs => cs.attrPairs
  | .cons (.elem v) cs => v.attrPairs + cs.attrPairs
end

/-- Occurrences of `c` across the attribute keys and values of one
node. -/
def attrsCharCount (c : Char) : List (String × String) → Nat
  | [] => 0
  | (k, v) :: rest => k.data.count c + v.data.count c + attrsCharCount c rest

mutual
/-- Occurrences of the character `c` in the content the serializer
escapes: each node's tag name twice (opening and closing tag), its
attribute keys and values, and every text child, recursively. -/
def VDOM.contentCount (c : Char) : VDOM → Nat
  | .mk tag attrs cs _ _ =>
    2 * tag.data.count c + attrsCharCount c attrs + ChildList.contentCount c cs
def ChildList.contentCount (c : Char) : ChildList → Nat
  | .nil => 0
  | .cons (.text s) cs => s.data.count c + ChildList.contentCount c cs
  | .cons (.elem v) cs => VDOM.contentCount c v + ChildList.contentCount c cs
end

mutual
/-- Is every node of the tree frozen?  True of every tree the source
can actually produce: `__init__` freezes before returning, so children
are always already-frozen instances. -/
def VDOM.allFrozen : VDOM → Bool
  | .mk _ _ cs _ f => f && cs.allFrozen
def ChildList.allFrozen : ChildList → Bool
  | .nil => true
  | .cons (.text _) cs => cs.allFrozen
  | .cons (.elem v) cs => v.allFrozen && cs.allFrozen
end

/-- Is this key absent or non-empty?  (`some ""` is the one key value
Python treats as falsy, which `to_dict` silently drops.) -/
def keyOkB : Option String → Bool
  | none => true
  | some s => s != ""

mutual
/-- No node of the tree carries the empty string as its key. -/
def VDOM.keysOk : VDOM → Bool
  | .mk _ _ cs k _ => keyOkB k && cs.keysOk
def ChildList.keysOk : ChildList → Bool
  | .nil => true
  | .cons (.text _) cs => cs.keysOk
  | .cons (.elem v) cs => v.keysOk && cs.keysOk
end

/-- Python truthiness of the `key` slot (`if self.key:` in `to_dict`):
present and non-empty. -/
def keyTruthy : Option String → Bool
  | none => false
  | some s => s != ""

/-- Is the positional-argument tuple exactly one Python list?  (The
flattening condition `len(children) == 1 and isinstance(children[0],
list)` of `_component`.) -/
def isSingleListArg : PyValList → Bool
  | .cons (.pylist _) .nil => true
  | _ => false

/-- Does every entry of the children sequence pass the `isinstance(c,
(VDOM, str))` test? -/
def allChildrenOk : PyValList → Bool
  | .nil => true
  | .cons x xs => x.toChild.isSome && allChildrenOk xs

theorem init_ok_shape (tag : String) (attrs : List (String × String))
    (children : PyValList) (key : Option String) (v : VDOM)
    (h : VDOM.init tag attrs children key = .ok v) :
    ∃ cs, children.toChildrenOpt = some cs ∧ v = .mk tag attrs cs key true := by
  unfold VDOM.init at h
  cases hc : children.toChildrenOpt with
  | none => rw [hc] at h; cases h
  | some cs => rw [hc] at h; exact ⟨cs, rfl, (Except.ok.inj h).symm⟩

/-- Claim C3: for every constructed Element Tree and every field name
and value, assigning the field after construction raises
`AttributeError` ("Cannot change attribute of immutable object"), and
the object's observable state afterwards is exactly the state before
the attempt. -/
theorem constructed_setattr_raises_and_preserves (tag : String)
    (attrs : List (String × String)) (children : PyValList)
    (key : Option String) (v : VDOM) (fa : FieldAssign)
    (h : VDOM.init tag attrs children key = .ok v) :
    v.setattr fa = (v, some (.attributeError immutableErrMsg)) := by
  obtain ⟨cs, -, hv⟩ := init_ok_shape tag attrs children key v h
  subst hv
  simp [VDOM.setattr, VDOM.frozen]

theorem constructed_setattr_raises_and_preserves_witness :
    VDOM.init "div" [("id", "x")] (.cons (.str "hey") .nil) none =
      .ok (.mk "div" [("id", "x")] (.cons (.text "hey") .nil) none true) ∧
    (VDOM.mk "div" [("id", "x")] (.cons (.text "hey") .nil) none true).setattr
        (.setTag "span") =
      (.mk "div" [("id", "x")] (.cons (.text "hey") .nil) none true,
        some (.attributeError immutableErrMsg)) :=
  ⟨by rfl,
   constructed_setattr_raises_and_preserves "div" [("id", "x")]
     (.cons (.str "hey") .nil) none _ (.setTag "span") (by rfl)⟩

theorem toChildrenOpt_eq_none_iff (children : PyValList) :
    children.toChildrenOpt = none ↔ allChildrenOk children = false := by
  match children with
  | .nil => simp [PyValList.toChildrenOpt, allChildrenOk]
  | .cons x xs =>
    have ih := toChildrenOpt_eq_none_iff xs
    cases hx : x.toChild with
    | none => simp [PyValList.toChildrenOpt, allChildrenOk, hx]
    | some c =>
      cases hxs : xs.toChildrenOpt with
      | none =>
        rw [hxs] at ih
        simp [PyValList.toChildrenOpt, allChildrenOk, hx, hxs, ih.mp rfl]
      | some cs =>
        simp [PyValList.toChildrenOpt, allChildrenOk, hx, hxs] at ih
        simp [PyValList.toChildrenOpt, allChildrenOk, hx, hxs, ih]

/-- Claim C4 (counterexample): constructing with a child that is
neither text nor an element node does not raise a `TypeError`-class
error — at children `[42]` the raised error is a `ValueError`. -/
theorem child_type_error_not_typeerror :
    ¬ ∃ msg, VDOM.init "div" [] (.cons (.pynum 42) .nil) none =
      .error (.typeError msg) := by
  rintro ⟨msg, h⟩
  rw [show VDOM.init "div" [] (.cons (.pynum 42) .nil) none =
      .error (.valueError childTypeErrMsg) from rfl] at h
  simp at h

/-- Claim C4 (amended): for every construction call where some member
of the supplied children sequence is neither a text string nor an
Element Tree node, construction fails with a `ValueError`-class error
("Children must be a list of VDOM objects or strings") and produces no
usable object. -/
theorem child_type_error_on_bad_children (tag : String)
    (attrs : List (String × String)) (children : PyValList)
    (key : Option String) (h : allChildrenOk children = false) :
    VDOM.init tag attrs children key = .error (.valueError childTypeErrMsg) := by
  unfold VDOM.init
  rw [(toChildrenOpt_eq_none_iff children).mpr h]

theorem child_type_error_on_bad_children_witness :
    allChildrenOk (.cons (.str "a") (.cons .pynone .nil)) = false ∧
    VDOM.init "p" [] (.cons (.str "a") (.cons .pynone .nil)) none =
      .error (.valueError childTypeErrMsg) :=
  ⟨by decide,
   child_type_error_on_bad_children "p" [] (.cons (.str "a") (.cons .pynone .nil))
     none (by decide)⟩

theorem resolveChildren_not_single_list (pos : PyValList)
    (h : isSingleListArg pos = false) : resolveChildren pos none = pos := by
  unfold resolveChildren
  match pos with
  | .nil => rfl
  | .cons (.pylist xs) .nil => exact absurd h (by simp [isSingleListArg])
  | .cons (.pylist xs) (.cons y ys) => rfl
  | .cons (.str s) t => rfl
  | .cons (.elem v) t => rfl
  | .cons (.pytuple xs) t => rfl
  | .cons (.pynum n) t => rfl
  | .cons (.pybool b) t => rfl
  | .cons .pynone t => rfl

/-- Claim C5 (counterexample): a single positional argument that is an
ordered sequence but not a Python list — here the one-element tuple
`("a",)` — is not flattened into the children; instead the tuple is
kept as the sole child and construction fails with the child-type
`ValueError`, so no tree with the sequence's contents as children is
produced. -/
theorem single_tuple_argument_not_flattened :
    component "div" true (.cons (.pytuple (.cons (.str "a") .nil)) .nil)
        none none [] =
      .error (.valueError childTypeErrMsg) := by rfl

/-- Claim C5 (amended): with no `children` keyword, a single positional
argument that is a Python *list* is flattened — the resulting children
are the list's contents; in every other case (two or more positional
arguments, or a single argument that is not a list, tuples included)
the positional arguments themselves are handed to the constructor as
the children. -/
theorem component_flattening (tag : String) (xs pos : PyValList)
    (h : isSingleListArg pos = false) :
    component tag true (.cons (.pylist xs) .nil) none none [] =
      VDOM.init tag [] xs none ∧
    component tag true pos none none [] = VDOM.init tag [] pos none := by
  constructor
  · simp [component, resolveChildren, resolveAttributes]
  · simp [component, resolveChildren_not_single_list pos h, resolveAttributes]

theorem component_flattening_witness :
    isSingleListArg (.cons (.str "x") (.cons (.str "y") .nil)) = false ∧
    component "div" true
        (.cons (.pylist (.cons (.str "a") (.cons (.str "b") .nil))) .nil)
        none none [] =
      VDOM.init "div" [] (.cons (.str "a") (.cons (.str "b") .nil)) none ∧
    component "div" true (.cons (.str "x") (.cons (.str "y") .nil))
        none none [] =
      VDOM.init "div" [] (.cons (.str "x") (.cons (.str "y") .nil)) none :=
  ⟨by decide,
   (component_flattening "div" (.cons (.str "a") (.cons (.str "b") .nil))
      (.cons (.str "x") (.cons (.str "y") .nil)) (by decide)).1,
   (component_flattening "div" (.cons (.str "a") (.cons (.str "b") .nil))
      (.cons (.str "x") (.cons (.str "y") .nil)) (by decide)).2⟩

/-- Claim C8: a factory created with `allow_children=False` fails on
any call whose resolved children sequence is non-empty, raising a
`ValueError` whose message names the tag — literally
`"<" ++ tag ++ " /> cannot have children"` — and constructs nothing;
a call with no children succeeds and returns the childless element. -/
theorem no_children_allowed (tag : String) (pos : PyValList)
    (ckw : Option PyValList) (akw : Option (List (String × String)))
    (kw : List (String × String)) (h : resolveChildren pos ckw ≠ .nil) :
    component tag false pos ckw akw kw =
      .error (.valueError ("<" ++ tag ++ " /> cannot have children")) ∧
    (∃ pre post, "<" ++ tag ++ " /> cannot have children" = pre ++ tag ++ post) ∧
    component tag false .nil none akw kw =
      .ok (.mk tag (resolveAttributes akw kw) .nil none true) := by
  refine ⟨?_, ⟨"<", " /> cannot have children", rfl⟩, ?_⟩
  · simp [component, h]
  · simp [component, resolveChildren, VDOM.init, PyValList.toChildrenOpt]

theorem no_children_allowed_witness :
    resolveChildren (.cons (.str "oops") .nil) none ≠ .nil ∧
    component "img" false (.cons (.str "oops") .nil) none none [] =
      .error (.valueError "<img /> cannot have children") ∧
    component "img" false .nil none none [] =
      .ok (.mk "img" [] .nil none true) := by
  refine ⟨by decide, ?_, ?_⟩
  · have h := no_children_allowed "img" (.cons (.str "oops") .nil) none none []
      (by decide)
    exact h.1
  · have h := no_children_allowed "img" (.cons (.str "oops") .nil) none none []
      (by decide)
    exact h.2.2

/-- Claim C6 (counterexample): a tree constructed with the key `""` —
which is present — produces a `to_dict` mapping with no `key` field,
because `to_dict` guards the field on Python truthiness (`if
self.key:`) rather than on presence. -/
theorem to_dict_drops_empty_key :
    (VDOM.to_dict (.mk "div" [] .nil (some "") true)).hasField "key" = false ∧
    (VDOM.mk "div" [] .nil (some "") true).key.isSome = true := by decide

/-- Claim C6 (amended): `to_dict` always emits `attributes` (even when
empty) and always emits `children` (each element child converted
recursively, text children passed through), and emits `key` exactly
when the tree's key is Python-truthy — present *and* non-empty; a key
of `""` is silently dropped. -/
theorem to_dict_fields (v : VDOM) :
    v.to_dict.hasField "attributes" = true ∧
    v.to_dict.hasField "children" = true ∧
    v.to_dict.getField "tagName" = some (.jstr v.tag_name) ∧
    v.to_dict.getField "attributes" = some (.jobj (attrsToJ v.attributes)) ∧
    v.to_dict.getField "children" = some (.jarr (childrenToJ v.children)) ∧
    v.to_dict.hasField "key" = keyTruthy v.key := by
  match v with
  | .mk tag attrs cs key f =>
    cases key with
    | none =>
      simp [VDOM.to_dict, Json.hasField, Json.getField, JObj.hasKey, JObj.get,
        keyFields, keyTruthy, VDOM.tag_name, VDOM.attributes, VDOM.children,
        VDOM.key]
    | some s =>
      by_cases hs : s = "" <;>
        simp [VDOM.to_dict, Json.hasField, Json.getField, JObj.hasKey, JObj.get,
          keyFields, keyTruthy, hs, bne, VDOM.tag_name, VDOM.attributes,
          VDOM.children, VDOM.key]

/-- Claim C7: `from_dict` validates its input against the canonical
schema before building anything — any value failing validation yields
the schema `ValidationError` — and in particular every mapping without
a `tagName` field is rejected with that error and produces no tree. -/
theorem from_dict_validation_gate (fs : JObj) (h : fs.hasKey "tagName" = false) :
    VDOM.from_dict (.jobj fs) = .error (.validationError schemaErrMsg) ∧
    ∀ w : Json, validNode w = false →
      VDOM.from_dict w = .error (.validationError schemaErrMsg) := by
  constructor
  · have hv : validNode (.jobj fs) = false := by simp [validNode, h]
    simp [VDOM.from_dict, hv]
  · intro w hw
    unfold VDOM.from_dict
    simp [hw]

theorem from_dict_validation_gate_witness :
    JObj.hasKey (.cons "attributes" (.jobj .nil) .nil) "tagName" = false ∧
    VDOM.from_dict (.jobj (.cons "attributes" (.jobj .nil) .nil)) =
      .error (.validationError schemaErrMsg) :=
  ⟨by decide,
   (from_dict_validation_gate (.cons "attributes" (.jobj .nil) .nil) (by decide)).1⟩

theorem attrsToJ_allStr (a : List (String × String)) :
    (attrsToJ a).allStr = true := by
  induction a with
  | nil => rfl
  | cons p rest ih =>
    obtain ⟨k, v⟩ := p
    simp [attrsToJ, JObj.allStr, Json.isStr, ih]

theorem toAttrs_attrsToJ (a : List (String × String)) :
    (attrsToJ a).toAttrs = a := by
  induction a with
  | nil => rfl
  | cons p rest ih =>
    obtain ⟨k, v⟩ := p
    simp [attrsToJ, JObj.toAttrs, ih]

mutual
theorem to_dict_valid (t : VDOM) : validNode t.to_dict = true := by
  match t with
  | .mk tag attrs cs key f =>
    have hcs := childrenToJ_valid cs
    cases key with
    | none =>
      simp [VDOM.to_dict, validNode, validFields, keyFields, JObj.hasKey,
        Json.isStr, attrsToJ_allStr, hcs]
    | some s =>
      by_cases hs : s = "" <;>
        simp [VDOM.to_dict, validNode, validFields, keyFields, JObj.hasKey,
          Json.isStr, attrsToJ_allStr, hcs, hs]
theorem childrenToJ_valid (cs : ChildList) :
    validChildren (childrenToJ cs) = true := by
  match cs with
  | .nil => rfl
  | .cons (.text s) rest =>
    simp [childrenToJ, validChildren, childrenToJ_valid rest]
  | .cons (.elem (.mk tag attrs cs2 key f)) rest =>
    have hv := to_dict_valid (.mk tag attrs cs2 key f)
    have hrest := childrenToJ_valid rest
    simp only [childrenToJ, validChildren, VDOM.to_dict] at hv ⊢
    simp [hv, hrest]
end

theorem asPyVals_toChildrenOpt (cs : ChildList) :
    cs.asPyVals.toChildrenOpt = some cs := by
  match cs with
  | .nil => rfl
  | .cons (.text s) rest =>
    simp [ChildList.asPyVals, PyValList.toChildrenOpt, PyVal.toChild,
      asPyVals_toChildrenOpt rest]
  | .cons (.elem v) rest =>
    simp [ChildList.asPyVals, PyValList.toChildrenOpt, PyVal.toChild,
      asPyVals_toChildrenOpt rest]

theorem init_asPyVals (tag : String) (attrs : List (String × String))
    (cs : ChildList) (key : Option String) :
    VDOM.init tag attrs cs.asPyVals key = .ok (.mk tag attrs cs key true) := by
  simp [VDOM.init, asPyVals_toChildrenOpt]

mutual
theorem roundtrip_node (t : VDOM) (hf : t.allFrozen = true)
    (hk : t.keysOk = true) : VDOM.from_dict t.to_dict = .ok t := by
  match t with
  | .mk tag attrs cs key f =>
    simp only [VDOM.allFrozen, Bool.and_eq_true] at hf
    simp only [VDOM.keysOk, Bool.and_eq_true] at hk
    have hcs := roundtrip_children cs hf.2 hk.2
    have hvalid := to_dict_valid (VDOM.mk tag attrs cs key f)
    have hfr : f = true := hf.1
    subst hfr
    cases key with
    | none =>
      simp only [VDOM.to_dict, keyFields] at hvalid ⊢
      simp only [VDOM.from_dict, hvalid, if_true]
      simp [childrenOfFields, hcs, tagOf, attrsOf, keyOf, JObj.get,
        toAttrs_attrsToJ, init_asPyVals]
    | some s =>
      have hs : s ≠ "" := by simpa [keyOkB] using hk.1
      simp only [VDOM.to_dict, keyFields, if_neg hs] at hvalid ⊢
      simp only [VDOM.from_dict, hvalid, if_true]
      simp [childrenOfFields, hcs, tagOf, attrsOf, keyOf, JObj.get,
        toAttrs_attrsToJ, init_asPyVals]
theorem roundtrip_children (cs : ChildList) (hf : cs.allFrozen = true)
    (hk : cs.keysOk = true) :
    childrenFromJson (childrenToJ cs) = .ok cs.asPyVals := by
  match cs with
  | .nil => rfl
  | .cons (.text s) rest =>
    simp only [ChildList.allFrozen] at hf
    simp only [ChildList.keysOk] at hk
    simp [childrenToJ, childrenFromJson, ChildList.asPyVals,
      roundtrip_children rest hf hk]
  | .cons (.elem (.mk tag2 a2 c2 k2 f2)) rest =>
    simp only [ChildList.allFrozen, Bool.and_eq_true] at hf
    simp only [ChildList.keysOk, Bool.and_eq_true] at hk
    have hv := roundtrip_node (.mk tag2 a2 c2 k2 f2) hf.1 hk.1
    have hrest := roundtrip_children rest hf.2 hk.2
    simp only [VDOM.to_dict] at hv
    simp only [childrenToJ, VDOM.to_dict]
    simp [childrenFromJson, hv, hrest, ChildList.asPyVals]
end

/-- Claim C1 (counterexample): the round trip is not the identity on
every validly constructed tree — a tree whose key is the (present but
Python-falsy) empty string comes back with no key, because `to_dict`
drops falsy keys. -/
theorem roundtrip_loses_empty_key :
    VDOM.from_dict (VDOM.to_dict (.mk "div" [] .nil (some "") true)) ≠
      .ok (.mk "div" [] .nil (some "") true) ∧
    VDOM.from_dict (VDOM.to_dict (.mk "div" [] .nil (some "") true)) =
      .ok (.mk "div" [] .nil none true) := by decide

/-- Claim C1 (amended): for every validly constructed Element Tree —
every node frozen, as construction guarantees — in which no node's key
is the empty string, `VDOM.from_dict (t.to_dict)` rebuilds a tree equal
to `t` in every field: tag, attributes, children (recursively) and
key.  (A key of `""` is the single exception: `to_dict` drops it and
the rebuilt node carries no key.) -/
theorem roundtrip_structured (t : VDOM) (hf : t.allFrozen = true)
    (hk : t.keysOk = true) : VDOM.from_dict t.to_dict = .ok t :=
  roundtrip_node t hf hk

theorem roundtrip_structured_witness :
    (VDOM.mk "div" [("class", "big")]
        (.cons (.elem (.mk "p" [] (.cons (.text "hey") .nil) (some "k") true))
          .nil) none true).allFrozen = true ∧
    VDOM.from_dict
        (VDOM.to_dict
          (.mk "div" [("class", "big")]
            (.cons (.elem (.mk "p" [] (.cons (.text "hey") .nil) (some "k") true))
              .nil) none true)) =
      .ok (.mk "div" [("class", "big")]
        (.cons (.elem (.mk "p" [] (.cons (.text "hey") .nil) (some "k") true))
          .nil) none true) :=
  ⟨by decide,
   roundtrip_structured
     (.mk "div" [("class", "big")]
       (.cons (.elem (.mk "p" [] (.cons (.text "hey") .nil) (some "k") true))
         .nil) none true) (by decide) (by decide)⟩

theorem init_ok_frozen (tag : String) (attrs : List (String × String))
    (children : PyValList) (key : Option String) (v : VDOM)
    (h : VDOM.init tag attrs children key = .ok v) : v.frozen = true := by
  obtain ⟨cs, -, hv⟩ := init_ok_shape tag attrs children key v h
  subst hv
  rfl

theorem from_dict_ok_frozen (j : Json) (v : VDOM)
    (h : VDOM.from_dict j = .ok v) : v.frozen = true := by
  cases j with
  | jobj fs =>
    unfold VDOM.from_dict at h
    cases hval : validNode (.jobj fs) with
    | false => simp [hval] at h
    | true =>
      cases hc : childrenOfFields fs with
      | error e => simp [hval, hc] at h
      | ok cs =>
        simp only [hval, if_true, hc] at h
        exact init_ok_frozen _ _ _ _ _ h
  | jnull => unfold VDOM.from_dict at h; simp [validNode] at h
  | jbool b => unfold VDOM.from_dict at h; simp [validNode] at h
  | jnum n => unfold VDOM.from_dict at h; simp [validNode] at h
  | jstr s => unfold VDOM.from_dict at h; simp [validNode] at h
  | jarr xs => unfold VDOM.from_dict at h; simp [validNode] at h

/-- Claim C9: passing a structured value (dict or list) in place of the
tag name takes the legacy adapter path: the deprecation warning is
emitted unconditionally and non-fatally, the value is validated
against the canonical schema first (a mismatch surfaces as the schema
`ValidationError`), and on success the constructed tree is
field-for-field the tree `from_dict` builds from the value —
regardless of the attributes, children and key arguments, which the
adapter overwrites. -/
theorem legacy_adapter_matches_from_dict (j : Json)
    (_hj : isStructuredArg j = true) (attrs : List (String × String))
    (children : PyValList) (key : Option String) :
    (VDOM.construct (.tagValue j) attrs children key).1 = [deprecationMsg] ∧
    (VDOM.construct (.tagValue j) attrs children key).2 = VDOM.from_dict j ∧
    (validNode j = false →
      (VDOM.construct (.tagValue j) attrs children key).2 =
        .error (.validationError schemaErrMsg)) := by
  refine ⟨rfl, ?_, ?_⟩
  · cases hd : VDOM.from_dict j with
    | error e => simp [VDOM.construct, hd]
    | ok vd =>
      have hfr := from_dict_ok_frozen j vd hd
      match vd, hfr with
      | .mk tag a cs k true, _ =>
        simp [VDOM.construct, hd, VDOM.tag_name, VDOM.attributes,
          VDOM.children, VDOM.key, init_asPyVals]
  · intro hw
    have : VDOM.from_dict j = .error (.validationError schemaErrMsg) := by
      unfold VDOM.from_dict
      simp [hw]
    simp [VDOM.construct, this]

theorem legacy_adapter_matches_from_dict_witness :
    isStructuredArg
        (.jobj (.cons "tagName" (.jstr "h1")
          (.cons "children" (.jarr (.cons (.jstr "Hey") .nil)) .nil))) = true ∧
    (VDOM.construct
        (.tagValue (.jobj (.cons "tagName" (.jstr "h1")
          (.cons "children" (.jarr (.cons (.jstr "Hey") .nil)) .nil))))
        [] .nil none).1 = [deprecationMsg] ∧
    (VDOM.construct
        (.tagValue (.jobj (.cons "tagName" (.jstr "h1")
          (.cons "children" (.jarr (.cons (.jstr "Hey") .nil)) .nil))))
        [] .nil none).2 =
      VDOM.from_dict (.jobj (.cons "tagName" (.jstr "h1")
        (.cons "children" (.jarr (.cons (.jstr "Hey") .nil)) .nil))) := by
  refine ⟨by decide, ?_, ?_⟩
  · exact (legacy_adapter_matches_from_dict _ (by decide) [] .nil none).1
  · exact (legacy_adapter_matches_from_dict _ (by decide) [] .nil none).2.1

theorem data_singleton_str (c : Char) : (String.singleton c).data = [c] := rfl

theorem escape_data (s : String) : (escape s).data = escList s.data := rfl

theorem escChar_count_zero (c0 : Char)
    (h : c0 = '<' ∨ c0 = '>' ∨ c0 = quoteChar ∨ c0 = aposChar) (c : Char) :
    (escChar c).count c0 = 0 := by
  unfold escChar
  split_ifs with h1 h2 h3 h4 h5
  · rcases h with h | h | h | h <;> subst h <;> decide
  · rcases h with h | h | h | h <;> subst h <;> decide
  · rcases h with h | h | h | h <;> subst h <;> decide
  · rcases h with h | h | h | h <;> subst h <;> decide
  · rcases h with h | h | h | h <;> subst h <;> decide
  · have hnc : c0 ≠ c := by
      rcases h with h | h | h | h <;> subst h
      · exact fun hc => h2 hc.symm
      · exact fun hc => h3 hc.symm
      · exact fun hc => h4 hc.symm
      · exact fun hc => h5 hc.symm
    simp [List.count_cons, hnc]

theorem escList_count_zero (c0 : Char)
    (h : c0 = '<' ∨ c0 = '>' ∨ c0 = quoteChar ∨ c0 = aposChar) (l : List Char) :
    (escList l).count c0 = 0 := by
  induction l with
  | nil => rfl
  | cons c cs ih =>
    simp [escList, List.count_append, escChar_count_zero c0 h c, ih]

theorem attrsHtml_count (c0 : Char)
    (h : c0 = '<' ∨ c0 = '>' ∨ c0 = quoteChar ∨ c0 = aposChar)
    (a : List (String × String)) :
    (attrsHtml a).data.count c0 =
      (if c0 = quoteChar then 2 * a.length else 0) := by
  induction a with
  | nil =>
    simp [attrsHtml, List.count_nil]
  | cons p rest ih =>
    obtain ⟨k, v⟩ := p
    have hq : [quoteChar].count c0 = (if c0 = quoteChar then 1 else 0) := by
      by_cases hc : c0 = quoteChar <;> simp [List.count_cons, hc]
    simp only [attrsHtml, String.data_append, List.count_append, escape_data,
      data_singleton_str, escList_count_zero c0 h, ih, hq]
    have hsp : List.count c0 [' '] = 0 := by
      rcases h with h | h | h | h <;> subst h <;> decide
    have heq : List.count c0 ['='] = 0 := by
      rcases h with h | h | h | h <;> subst h <;> decide
    rw [hsp, heq]
    by_cases hc : c0 = quoteChar <;> simp [hc, List.length_cons] <;> ring

mutual
theorem repr_html_char_counts (t : VDOM) :
    List.count '<' t.repr_html.data = 2 * t.nodes ∧
    List.count '>' t.repr_html.data = 2 * t.nodes ∧
    List.count quoteChar t.repr_html.data = 2 * t.attrPairs ∧
    List.count aposChar t.repr_html.data = 0 := by
  match t with
  | .mk tag attrs cs key f =>
    obtain ⟨ih1, ih2, ih3, ih4⟩ := childrenHtml_char_counts cs
    simp only [VDOM.repr_html, String.data_append, List.count_append,
      escape_data, VDOM.nodes, VDOM.attrPairs]
    refine ⟨?_, ?_, ?_, ?_⟩
    · rw [escList_count_zero '<' (by decide) tag.data,
        attrsHtml_count '<' (by decide) attrs, if_neg (by decide), ih1]
      have c1 : List.count '<' ['<'] = 1 := by decide
      have c2 : List.count '<' ['>'] = 0 := by decide
      have c3 : List.count '<' ['<', '/'] = 1 := by decide
      rw [c1, c2, c3]
      omega
    · rw [escList_count_zero '>' (by decide) tag.data,
        attrsHtml_count '>' (by decide) attrs, if_neg (by decide), ih2]
      have c1 : List.count '>' ['<'] = 0 := by decide
      have c2 : List.count '>' ['>'] = 1 := by decide
      have c3 : List.count '>' ['<', '/'] = 0 := by decide
      rw [c1, c2, c3]
      omega
    · rw [escList_count_zero quoteChar (by decide) tag.data,
        attrsHtml_count quoteChar (by decide) attrs, if_pos rfl, ih3]
      have c1 : List.count quoteChar ['<'] = 0 := by decide
      have c2 : List.count quoteChar ['>'] = 0 := by decide
      have c3 : List.count quoteChar ['<', '/'] = 0 := by decide
      rw [c1, c2, c3]
      omega
    · rw [escList_count_zero aposChar (by decide) tag.data,
        attrsHtml_count aposChar (by decide) attrs, if_neg (by decide), ih4]
      have c1 : List.count aposChar ['<'] = 0 := by decide
      have c2 : List.count aposChar ['>'] = 0 := by decide
      have c3 : List.count aposChar ['<', '/'] = 0 := by decide
      rw [c1, c2, c3]
theorem childrenHtml_char_counts (cs : ChildList) :
    List.count '<' (childrenHtml cs).data = 2 * cs.nodes ∧
    List.count '>' (childrenHtml cs).data = 2 * cs.nodes ∧
    List.count quoteChar (childrenHtml cs).data = 2 * cs.attrPairs ∧
    List.count aposChar (childrenHtml cs).data = 0 := by
  match cs with
  | .nil => refine ⟨by decide, by decide, by decide, by decide⟩
  | .cons (.text s) rest =>
    obtain ⟨ih1, ih2, ih3, ih4⟩ := childrenHtml_char_counts rest
    simp only [childrenHtml, String.data_append, List.count_append, escape_data,
      ChildList.nodes, ChildList.attrPairs]
    refine ⟨?_, ?_, ?_, ?_⟩
    · rw [escList_count_zero '<' (by decide) s.data, ih1]; omega
    · rw [escList_count_zero '>' (by decide) s.data, ih2]; omega
    · rw [escList_count_zero quoteChar (by decide) s.data, ih3]; omega
    · rw [escList_count_zero aposChar (by decide) s.data, ih4]
  | .cons (.elem v) rest =>
    obtain ⟨iv1, iv2, iv3, iv4⟩ := repr_html_char_counts v
    obtain ⟨ih1, ih2, ih3, ih4⟩ := childrenHtml_char_counts rest
    simp only [childrenHtml, String.data_append, List.count_append,
      ChildList.nodes, ChildList.attrPairs]
    refine ⟨?_, ?_, ?_, ?_⟩
    · rw [iv1, ih1]; omega
    · rw [iv2, ih2]; omega
    · rw [iv3, ih3]; omega
    · rw [iv4, ih4]
end

theorem countSeq_escChar (c0 : Char) (pat : List Char)
    (hp : c0 = '&' ∧ pat = ampEntity ∨ c0 = '<' ∧ pat = ltEntity ∨
      c0 = '>' ∧ pat = gtEntity ∨ c0 = quoteChar ∧ pat = quotEntity ∨
      c0 = aposChar ∧ pat = aposEntity)
    (c : Char) (rest : List Char) :
    countSeq pat (escChar c ++ rest) =
      (if c = c0 then 1 else 0) + countSeq pat rest := by
  obtain ⟨h0, hpat⟩ | ⟨h0, hpat⟩ | ⟨h0, hpat⟩ | ⟨h0, hpat⟩ | ⟨h0, hpat⟩ := hp <;>
    subst h0 <;> subst hpat <;> unfold escChar <;>
    split_ifs with h1 h2 h3 h4 h5 <;>
    simp_all [countSeq, beginsWith, quoteChar, aposChar, ampEntity, ltEntity,
      gtEntity, quotEntity, aposEntity]

theorem countSeq_escList (c0 : Char) (pat : List Char)
    (hp : c0 = '&' ∧ pat = ampEntity ∨ c0 = '<' ∧ pat = ltEntity ∨
      c0 = '>' ∧ pat = gtEntity ∨ c0 = quoteChar ∧ pat = quotEntity ∨
      c0 = aposChar ∧ pat = aposEntity)
    (l : List Char) (rest : List Char) :
    countSeq pat (escList l ++ rest) = List.count c0 l + countSeq pat rest := by
  induction l with
  | nil => simp [escList]
  | cons c cs ih =>
    rw [escList, List.append_assoc, countSeq_escChar c0 pat hp c _, ih,
      List.count_cons]
    by_cases hc : c = c0
    · subst hc; simp [Nat.add_comm, Nat.add_assoc, Nat.add_left_comm]
    · simp [hc, Ne.symm hc]

theorem entity_head (c0 : Char) (pat : List Char)
    (hp : c0 = '&' ∧ pat = ampEntity ∨ c0 = '<' ∧ pat = ltEntity ∨
      c0 = '>' ∧ pat = gtEntity ∨ c0 = quoteChar ∧ pat = quotEntity ∨
      c0 = aposChar ∧ pat = aposEntity) :
    ∃ pt, pat = '&' :: pt := by
  obtain ⟨h0, hpat⟩ | ⟨h0, hpat⟩ | ⟨h0, hpat⟩ | ⟨h0, hpat⟩ | ⟨h0, hpat⟩ := hp <;>
    subst hpat <;> exact ⟨_, rfl⟩

theorem countSeq_no_amp_piece (pat pt : List Char) (hpt : pat = '&' :: pt)
    (piece : List Char) (hpiece : ∀ x ∈ piece, x ≠ '&') (rest : List Char) :
    countSeq pat (piece ++ rest) = countSeq pat rest := by
  subst hpt
  induction piece with
  | nil => simp
  | cons c cs ih =>
    have hc : c ≠ '&' := hpiece c (by simp)
    have ih' := ih (fun x hx => hpiece x (by simp [hx]))
    rw [List.cons_append]
    simp [countSeq, beginsWith, hc, ih']

theorem countSeq_attrsHtml (c0 : Char) (pat : List Char)
    (hp : c0 = '&' ∧ pat = ampEntity ∨ c0 = '<' ∧ pat = ltEntity ∨
      c0 = '>' ∧ pat = gtEntity ∨ c0 = quoteChar ∧ pat = quotEntity ∨
      c0 = aposChar ∧ pat = aposEntity)
    (a : List (String × String)) (rest : List Char) :
    countSeq pat ((attrsHtml a).data ++ rest) =
      attrsCharCount c0 a + countSeq pat rest := by
  obtain ⟨pt, hpt⟩ := entity_head c0 pat hp
  induction a with
  | nil => simp [attrsHtml, attrsCharCount]
  | cons p r ih =>
    obtain ⟨k, v⟩ := p
    rw [attrsHtml]
    simp only [String.data_append, escape_data, data_singleton_str,
      List.append_assoc]
    rw [countSeq_no_amp_piece pat pt hpt [' '] (by decide) _,
      countSeq_escList c0 pat hp k.data _,
      countSeq_no_amp_piece pat pt hpt ['='] (by decide) _,
      countSeq_no_amp_piece pat pt hpt [quoteChar] (by decide) _,
      countSeq_escList c0 pat hp v.data _,
      countSeq_no_amp_piece pat pt hpt [quoteChar] (by decide) _, ih,
      attrsCharCount]
    omega

mutual
theorem repr_html_countSeq (c0 : Char) (pat : List Char)
    (hp : c0 = '&' ∧ pat = ampEntity ∨ c0 = '<' ∧ pat = ltEntity ∨
      c0 = '>' ∧ pat = gtEntity ∨ c0 = quoteChar ∧ pat = quotEntity ∨
      c0 = aposChar ∧ pat = aposEntity)
    (t : VDOM) (rest : List Char) :
    countSeq pat (t.repr_html.data ++ rest) =
      VDOM.contentCount c0 t + countSeq pat rest := by
  match t with
  | .mk tag attrs cs key f =>
    obtain ⟨pt, hpt⟩ := entity_head c0 pat hp
    rw [VDOM.repr_html]
    simp only [String.data_append, escape_data, List.append_assoc]
    rw [countSeq_no_amp_piece pat pt hpt ['<'] (by decide) _,
      countSeq_escList c0 pat hp tag.data _,
      countSeq_attrsHtml c0 pat hp attrs _,
      countSeq_no_amp_piece pat pt hpt ['>'] (by decide) _,
      childrenHtml_countSeq c0 pat hp cs _,
      countSeq_no_amp_piece pat pt hpt ['<', '/'] (by decide) _,
      countSeq_escList c0 pat hp tag.data _,
      countSeq_no_amp_piece pat pt hpt ['>'] (by decide) _,
      VDOM.contentCount]
    omega
theorem childrenHtml_countSeq (c0 : Char) (pat : List Char)
    (hp : c0 = '&' ∧ pat = ampEntity ∨ c0 = '<' ∧ pat = ltEntity ∨
      c0 = '>' ∧ pat = gtEntity ∨ c0 = quoteChar ∧ pat = quotEntity ∨
      c0 = aposChar ∧ pat = aposEntity)
    (cs : ChildList) (rest : List Char) :
    countSeq pat ((childrenHtml cs).data ++ rest) =
      ChildList.contentCount c0 cs + countSeq pat rest := by
  match cs with
  | .nil => simp [childrenHtml, ChildList.contentCount]
  | .cons (.text s) r =>
    rw [childrenHtml]
    simp only [String.data_append, escape_data, List.append_assoc]
    rw [countSeq_escList c0 pat hp s.data _, childrenHtml_countSeq c0 pat hp r _,
      ChildList.contentCount]
    omega
  | .cons (.elem v) r =>
    rw [childrenHtml]
    simp only [String.data_append, List.append_assoc]
    rw [repr_html_countSeq c0 pat hp v _, childrenHtml_countSeq c0 pat hp r _,
      ChildList.contentCount]
    omega
end

theorem ampOk_escChar (c : Char) (rest : List Char) :
    ampOk (escChar c ++ rest) = ampOk rest := by
  unfold escChar
  split_ifs with h1 h2 h3 h4 h5 <;>
    simp_all [ampOk, beginsWith, quoteChar, aposChar]

theorem ampOk_escList (l : List Char) (rest : List Char) :
    ampOk (escList l ++ rest) = ampOk rest := by
  induction l with
  | nil => simp [escList]
  | cons c cs ih => rw [escList, List.append_assoc, ampOk_escChar c _, ih]

theorem ampOk_no_amp_piece (piece : List Char)
    (hpiece : ∀ x ∈ piece, x ≠ '&') (rest : List Char) :
    ampOk (piece ++ rest) = ampOk rest := by
  induction piece with
  | nil => simp
  | cons c cs ih =>
    have hc : c ≠ '&' := hpiece c (by simp)
    have ih' := ih (fun x hx => hpiece x (by simp [hx]))
    rw [List.cons_append]
    simp [ampOk, hc, ih']

theorem ampOk_attrsHtml (a : List (String × String)) (rest : List Char) :
    ampOk ((attrsHtml a).data ++ rest) = ampOk rest := by
  induction a with
  | nil => simp [attrsHtml]
  | cons p r ih =>
    obtain ⟨k, v⟩ := p
    rw [attrsHtml]
    simp only [String.data_append, escape_data, data_singleton_str,
      List.append_assoc]
    rw [ampOk_no_amp_piece [' '] (by decide) _, ampOk_escList k.data _,
      ampOk_no_amp_piece ['='] (by decide) _,
      ampOk_no_amp_piece [quoteChar] (by decide) _, ampOk_escList v.data _,
      ampOk_no_amp_piece [quoteChar] (by decide) _, ih]

mutual
theorem repr_html_ampOk_aux (t : VDOM) (rest : List Char) :
    ampOk (t.repr_html.data ++ rest) = ampOk rest := by
  match t with
  | .mk tag attrs cs key f =>
    rw [VDOM.repr_html]
    simp only [String.data_append, escape_data, List.append_assoc]
    rw [ampOk_no_amp_piece ['<'] (by decide) _, ampOk_escList tag.data _,
      ampOk_attrsHtml attrs _, ampOk_no_amp_piece ['>'] (by decide) _,
      childrenHtml_ampOk_aux cs _, ampOk_no_amp_piece ['<', '/'] (by decide) _,
      ampOk_escList tag.data _, ampOk_no_amp_piece ['>'] (by decide) _]
theorem childrenHtml_ampOk_aux (cs : ChildList) (rest : List Char) :
    ampOk ((childrenHtml cs).data ++ rest) = ampOk rest := by
  match cs with
  | .nil => simp [childrenHtml]
  | .cons (.text s) r =>
    rw [childrenHtml]
    simp only [String.data_append, escape_data, List.append_assoc]
    rw [ampOk_escList s.data _, childrenHtml_ampOk_aux r _]
  | .cons (.elem v) r =>
    rw [childrenHtml]
    simp only [String.data_append, List.append_assoc]
    rw [repr_html_ampOk_aux v _, childrenHtml_ampOk_aux r _]
end

/-- Claim C2: the serialized markup contains no raw `<`, `>`, `"` or
`&` coming from content (tag names, attribute keys and values, text
children): the only `<` and `>` characters are the `2 * nodes`
structural tag brackets, the only `"` characters are the `2 *
attrPairs` structural attribute quotes, every content occurrence of
`&`, `<`, `>`, `"` appears as its entity (`&amp;`, `&lt;`, `&gt;`,
`&quot;` — exactly one entity occurrence per content character), and
every `&` in the output begins one of the five escape entities. -/
theorem serializer_escapes_completely (t : VDOM) :
    countChar '<' t.repr_html = 2 * t.nodes ∧
    countChar '>' t.repr_html = 2 * t.nodes ∧
    countChar quoteChar t.repr_html = 2 * t.attrPairs ∧
    countSeq ampEntity t.repr_html.data = VDOM.contentCount '&' t ∧
    countSeq ltEntity t.repr_html.data = VDOM.contentCount '<' t ∧
    countSeq gtEntity t.repr_html.data = VDOM.contentCount '>' t ∧
    countSeq quotEntity t.repr_html.data = VDOM.contentCount quoteChar t ∧
    ampOk t.repr_html.data = true := by
  obtain ⟨h1, h2, h3, h4⟩ := repr_html_char_counts t
  have e1 := repr_html_countSeq '&' ampEntity (Or.inl ⟨rfl, rfl⟩) t []
  have e2 := repr_html_countSeq '<' ltEntity (Or.inr (Or.inl ⟨rfl, rfl⟩)) t []
  have e3 := repr_html_countSeq '>' gtEntity
    (Or.inr (Or.inr (Or.inl ⟨rfl, rfl⟩))) t []
  have e4 := repr_html_countSeq quoteChar quotEntity
    (Or.inr (Or.inr (Or.inr (Or.inl ⟨rfl, rfl⟩)))) t []
  have a1 := repr_html_ampOk_aux t []
  simp only [List.append_nil, countSeq, ampOk] at e1 e2 e3 e4 a1
  exact ⟨h1, h2, h3, by omega, by omega, by omega, by omega, a1⟩

/-- Claim C10: the serializer escapes apostrophes as well — the
rendered markup never contains a raw apostrophe, and every apostrophe
of the content (tag names, attribute keys and values, text children)
appears as exactly one `&#x27;` entity occurrence, per Python 3's
`html.escape`. -/
theorem serializer_escapes_apostrophes (t : VDOM) :
    countChar aposChar t.repr_html = 0 ∧
    countSeq aposEntity t.repr_html.data = VDOM.contentCount aposChar t := by
  obtain ⟨-, -, -, h4⟩ := repr_html_char_counts t
  have e5 := repr_html_countSeq aposChar aposEntity
    (Or.inr (Or.inr (Or.inr (Or.inr ⟨rfl, rfl⟩)))) t []
  simp only [List.append_nil, countSeq] at e5
  exact ⟨h4, by omega⟩
